import Mathlib

/-
  Verification of the xcudp interface (src/can/interfaces/xcudp.py).

  The module implements a UDP-based simulated CAN bus: `XcudpBus.send`
  encodes a `Message` into a wire frame (a bytearray) and transmits it as a
  single datagram; `_recv_internal` dequeues from the instance's delivery
  queue; a process-wide `channels` dict maps a channel key to the list of
  delivery queues registered under it.

  Python-level semantics embedded here:
  * bytearrays are `List ℕ` (each element a byte 0..255);
  * `l[i]` on a Python list supports negative indices (`pyListGet`);
  * `b[i:j] = xs` on a bytearray REPLACES the slice and may grow or shrink
    the buffer (`pySetSlice`): this matters because `send` assigns an
    8-byte value to `b[3:10]` (a 7-element slice) and a 2-byte value to
    `b[11:12]` (a 1-element slice), growing the buffer by two;
  * `int.to_bytes(n, 'little')` raises OverflowError on a negative value or
    one that does not fit (`int_to_bytes`);
  * `b[i] = v` on a bytearray raises ValueError unless 0 <= v < 256
    (`pySetItem`);
  * fallible operations live in `Except PyError`; a successful `send`
    returns the transmitted datagram, an error means nothing was sent;
  * Python floats are modelled as rationals; `int(round(x))` is modelled by
    `pythonRound`, round half to even as in Python 3.
-/

deriving instance DecidableEq for Except

namespace Xcudp

/-- Python exception kinds raised by the code paths modelled here. -/
inductive PyError where
  | CanError (msg : String)
  | IndexError
  | OverflowError
  | ValueError
  | KeyError
deriving DecidableEq

/-- Source line `dlc2len = [0, 1, 2, 3, 4, 5, 6, 7, 8, 12, 16, 20, 24, 32, 48, 64]`. -/
def dlc2len : List ℕ := [0, 1, 2, 3, 4, 5, 6, 7, 8, 12, 16, 20, 24, 32, 48, 64]

/-- Python list subscript `l[i]`: indices `0 <= i < len` read directly,
negative indices `-len <= i < 0` read from the end, anything else raises
IndexError. -/
def pyListGet (l : List ℕ) (i : ℤ) : Except PyError ℕ :=
  if 0 ≤ i ∧ i < l.length then .ok (l.getD i.toNat 0)
  else if -(l.length : ℤ) ≤ i ∧ i < 0 then .ok (l.getD (l.length - (-i).toNat) 0)
  else .error .IndexError

/-- Little-endian byte expansion of a natural number into `len` bytes. -/
def toBytesLittle : ℕ → ℕ → List ℕ
  | _, 0 => []
  | n, len + 1 => n % 256 :: toBytesLittle (n / 256) len

/-- Python `n.to_bytes(len, 'little')`: OverflowError when `n` is negative
or does not fit in `len` bytes. -/
def int_to_bytes (n : ℤ) (len : ℕ) : Except PyError (List ℕ) :=
  if 0 ≤ n ∧ n < 2 ^ (8 * len) then .ok (toBytesLittle n.toNat len)
  else .error .OverflowError

/-- Python bytearray item write `b[i] = v`: ValueError unless `0 <= v < 256`,
IndexError when the index is out of range (only nonnegative indices occur in
the source). -/
def pySetItem (b : List ℕ) (i : ℕ) (v : ℤ) : Except PyError (List ℕ) :=
  if 0 ≤ v ∧ v < 256 then
    if i < b.length then .ok (b.set i v.toNat) else .error .IndexError
  else .error .ValueError

/-- Python bytearray in-place or `b[i] |= v` (read, or, write back). -/
def pyOrItem (b : List ℕ) (i : ℕ) (v : ℕ) : Except PyError (List ℕ) :=
  if i < b.length then .ok (b.set i (Nat.lor (b.getD i 0) v)) else .error .IndexError

/-- Python bytearray slice assignment `b[i:j] = xs` (step 1): the elements
of the clamped slice are replaced by `xs`, resizing the buffer. -/
def pySetSlice (b : List ℕ) (i j : ℕ) (xs : List ℕ) : List ℕ :=
  b.take i ++ xs ++ b.drop (max i j)

/-- Python 3 `round(x)` to an integer: round half to even. -/
def pythonRound (x : ℚ) : ℤ :=
  let n := x.floor
  let frac := x - n
  if frac < 1 / 2 then n
  else if 1 / 2 < frac then n + 1
  else if n % 2 = 0 then n else n + 1

/-- Logical frame, mirroring the fields of `can.message.Message` that
`XcudpBus.send` reads.  `dlc` and `arbitration_id` and `channel` are Python
ints (possibly negative, hence `ℤ`); `data` is a bytearray; `timestamp` is a
float, modelled as a rational. -/
structure Message where
  timestamp : ℚ
  arbitration_id : ℤ
  is_fd : Bool
  channel : ℤ
  dlc : ℤ
  data : List ℕ
deriving DecidableEq

/-- Per-instance state of an `XcudpBus` relevant to the modelled methods:
the `_open` flag and the lazily initialised `playback_start_time`. -/
structure BusState where
  _open : Bool
  playback_start_time : Option ℚ
deriving DecidableEq

/-- Source `XcudpBus._check_if_open`: raises `CanError("Operation on closed
bus")` when the bus is not open. -/
def check_if_open (st : BusState) : Except PyError Unit :=
  if st._open then .ok () else .error (.CanError "Operation on closed bus")

/-- Source `XcudpBus.datalen`: `return dlc2len[len] + 15`. -/
def datalen (len : ℤ) : Except PyError ℕ := do
  let v ← pyListGet dlc2len len
  return v + 15

/-- Source `XcudpBus.send`.  `now` stands for `time.time()` when the
playback epoch is not yet set.  On success it returns the updated bus state
and the datagram handed to `udpSend` (the wire frame); on error nothing is
transmitted.  The final dead-code branch `all_sent = True; if not all_sent:
raise CanError(...)` is kept verbatim. -/
def send (st : BusState) (msg : Message) (now : ℚ) :
    Except PyError (BusState × List ℕ) := do
  check_if_open st
  let playback_start_time := st.playback_start_time.getD now
  let st := { st with playback_start_time := some playback_start_time }
  let n ← datalen msg.dlc
  let b := List.replicate n 0
  let b ← pySetItem b 0 0x00
  let b ← pySetItem b 1 0x01
  let b ← pySetItem b 2 0x00
  let timestamp := playback_start_time + msg.timestamp
  let millis := pythonRound (timestamp * 1000)
  let tb ← int_to_bytes millis 8
  let b := pySetSlice b 3 10 tb
  let ib ← int_to_bytes msg.arbitration_id 2
  let b := pySetSlice b 11 12 ib
  let b ← if msg.is_fd then pyOrItem b 12 0x10 else pure b
  let b ← pySetItem b 13 msg.channel
  let v ← pyListGet dlc2len msg.dlc
  let b ← pySetItem b 14 (v : ℤ)
  let b := pySetSlice b 15 b.length msg.data
  let all_sent := true
  if all_sent then return (st, b)
  else .error (.CanError "Could not send message to one or more recipients")

/-- Outcome of `_recv_internal`: either the call returns a `(message?,
is_filtered)` pair together with the remaining queue contents, or (empty
queue, `timeout=None`) it blocks indefinitely and never returns. -/
inductive RecvOutcome where
  | result (m : Option Message) (filtered : Bool) (rest : List Message)
  | blocked
deriving DecidableEq

/-- Source `XcudpBus._recv_internal`: checks the bus is open, then
`self.queue.get(block=True, timeout=timeout)`.  The delivery queue is FIFO:
its contents are a list with the oldest element at the head.  CPython's
`queue.get` with `block=True` first dispatches on the timeout: a negative
timeout raises ValueError regardless of the queue contents (uncaught by the
method, whose `except` clause only handles `queue.Empty`); `timeout=None`
returns the head or blocks forever on an empty queue; a non-negative
timeout returns the head, or, on an empty queue, raises `queue.Empty` when
the timeout elapses, which the method turns into `(None, False)`. -/
def recv_internal (st : BusState) (q : List Message) (timeout : Option ℚ) :
    Except PyError RecvOutcome := do
  check_if_open st
  match timeout with
  | some t =>
    if t < 0 then .error .ValueError
    else
      match q with
      | m :: rest => return .result (some m) false rest
      | [] => return .result none false []
  | none =>
    match q with
    | m :: rest => return .result (some m) false rest
    | [] => return .blocked

/-- Channel registry: the module-global `channels` dict, a mapping from
channel key to the list of delivery queues registered under it, modelled as
an association list with (as in a Python dict) at most one entry per key.
Queues are identified abstractly by values of `Q`. -/
abbrev Registry (K Q : Type) := List (K × List Q)

/-- Dict lookup `channels[k]` / membership `k in channels`. -/
def chanLookup {K Q : Type} [DecidableEq K] : Registry K Q → K → Option (List Q)
  | [], _ => none
  | (k', v) :: rest, k => if k' = k then some v else chanLookup rest k

/-- Dict write `channels[k] = v`: replaces the entry when the key is
present, appends a new entry otherwise (Python dicts keep insertion order). -/
def chanSet {K Q : Type} [DecidableEq K] : Registry K Q → K → List Q → Registry K Q
  | [], k, v => [(k, v)]
  | (k', v') :: rest, k, v =>
    if k' = k then (k, v) :: rest else (k', v') :: chanSet rest k v

/-- Dict deletion `del channels[k]`: drops the entry for `k` (a Python dict
holds at most one entry per key). -/
def chanDel {K Q : Type} [DecidableEq K] : Registry K Q → K → Registry K Q
  | [], _ => []
  | (k', v') :: rest, k =>
    if k' = k then chanDel rest k else (k', v') :: chanDel rest k

/-- Keys of the registry, `channels.keys()`. -/
def chanKeys {K Q : Type} (reg : Registry K Q) : List K := reg.map Prod.fst

/-- Registration performed by `XcudpBus.__init__` (under `channels_lock`):
`if k not in channels: channels[k] = []` followed by
`channels[k].append(queue)` (the append mutates the shared list object that
`channels[k]` refers to). -/
def chanRegister {K Q : Type} [DecidableEq K] (reg : Registry K Q) (k : K) (q : Q) :
    Registry K Q :=
  let reg1 := if (chanLookup reg k).isSome then reg else chanSet reg k []
  chanSet reg1 k ((chanLookup reg1 k).getD [] ++ [q])

/-- Deregistration performed by `XcudpBus.shutdown` (under `channels_lock`):
`self.channel.remove(self.queue)` — `self.channel` aliases the list stored
at `channels[k]` — followed by `if not self.channel: del channels[k]`.
`list.remove` removes the first occurrence and raises ValueError when the
element is absent; a missing key (never reached through the class API while
the instance is registered) is a KeyError. -/
def chanDeregister {K Q : Type} [DecidableEq K] [DecidableEq Q]
    (reg : Registry K Q) (k : K) (q : Q) : Except PyError (Registry K Q) :=
  match chanLookup reg k with
  | none => .error .KeyError
  | some cur =>
    if q ∈ cur then
      let cur' := cur.erase q
      if cur'.isEmpty then .ok (chanDel reg k) else .ok (chanSet reg k cur')
    else .error .ValueError

/-- Source `XcudpBus.shutdown`: checks the bus is open, sets `_open` to
False, then deregisters the instance's queue (`k`, `q` stand for
`self.channel_id` and `self.queue`). -/
def shutdown {K Q : Type} [DecidableEq K] [DecidableEq Q]
    (st : BusState) (reg : Registry K Q) (k : K) (q : Q) :
    Except PyError (BusState × Registry K Q) := do
  check_if_open st
  let st := { st with _open := false }
  let reg ← chanDeregister reg k q
  return (st, reg)

/-- Whole-process view for `send`: the bus state together with the global
channel registry and the contents of every delivery queue.  The body of
`XcudpBus.send` never references `channels` or any queue, so they pass
through untouched. -/
structure World (K Q : Type) where
  bus : BusState
  channels : Registry K Q
  queues : List (Q × List Message)
deriving DecidableEq

/-- Process-level effect of `XcudpBus.send`: runs `send` on the bus state;
the registry and the delivery queues are not touched by the method body. -/
def sendWorld {K Q : Type} (w : World K Q) (msg : Message) (now : ℚ) :
    Except PyError (World K Q × List ℕ) := do
  let r ← send w.bus msg now
  return ({ w with bus := r.1 }, r.2)

/-- Decoded view of a wire frame, holding the two fields the round-trip law
of §8 constrains (payload and length code). -/
structure DecodedFrame where
  length_code : ℕ
  payload : List ℕ
deriving DecidableEq

/-- Modelled from the spec: the repository implements only the encode
direction (`send`); §4.2 states the symmetric decode obligation.  Decode
reads the payload length from the explicit length byte at offset 14 (not
re-derived from a code), validates that the total length equals
`declared_length + 15`, failing with `TruncatedFrame` otherwise, and takes
the payload from offsets 15 onward.  The length code is recovered as the
index of the declared length in the length table (the table is injective);
a declared length outside the table has no length code. -/
inductive DecodeError where
  | TruncatedFrame
  | UnknownLength
deriving DecidableEq

/-- Modelled from the spec: see `DecodeError`.  `decode(wire_bytes) ->
Frame` from §4.2. -/
def decode (wire : List ℕ) : Except DecodeError DecodedFrame :=
  match wire.get? 14 with
  | none => .error .TruncatedFrame
  | some declared =>
    if wire.length = declared + 15 then
      match dlc2len.indexOf? declared with
      | some code => .ok ⟨code, wire.drop 15⟩
      | none => .error .UnknownLength
    else .error .TruncatedFrame

end Xcudp

namespace Xcudp

theorem toBytesLittle_length (n len : ℕ) : (toBytesLittle n len).length = len := by
  induction len generalizing n with
  | zero => rfl
  | succ k ih => simp [toBytesLittle, ih]

theorem check_if_open_true (st : BusState) (h : st._open = true) :
    check_if_open st = .ok () := by
  simp [check_if_open, h]

theorem pyListGet_nonneg (l : List ℕ) (i : ℤ) (h0 : 0 ≤ i) (h1 : i < l.length) :
    pyListGet l i = .ok (l.getD i.toNat 0) := by
  simp [pyListGet, h0, h1]

theorem datalen_ok (c : ℤ) (h0 : 0 ≤ c) (h1 : c < 16) :
    datalen c = .ok (dlc2len.getD c.toNat 0 + 15) := by
  unfold datalen
  rw [pyListGet_nonneg dlc2len c h0 (by exact h1)]
  rfl

theorem int_to_bytes_ok (n : ℤ) (len : ℕ) (h0 : 0 ≤ n) (h1 : n < 2 ^ (8 * len)) :
    int_to_bytes n len = .ok (toBytesLittle n.toNat len) := by
  simp [int_to_bytes, h0, h1]

theorem pySetItem_ok (b : List ℕ) (i : ℕ) (v : ℤ) (h0 : 0 ≤ v) (h1 : v < 256)
    (h2 : i < b.length) : pySetItem b i v = .ok (b.set i v.toNat) := by
  simp [pySetItem, h0, h1, h2]

theorem pyOrItem_ok (b : List ℕ) (i : ℕ) (v : ℕ) (h : i < b.length) :
    pyOrItem b i v = .ok (b.set i (Nat.lor (b.getD i 0) v)) := by
  simp [pyOrItem, h]

theorem except_bind_ok {α β : Type} (a : α) (f : α → Except PyError β) :
    (Except.ok a : Except PyError α) >>= f = f a := rfl

/-- Value bound for the length table: every entry is at most 64, and the
default for out-of-range reads is 0. -/
theorem dlc2len_getD_le (x : ℕ) : dlc2len.getD x 0 ≤ 64 := by
  by_cases h : x < 16
  · interval_cases x <;> decide
  · rw [List.getD_eq_default]
    · omega
    · simp only [dlc2len, List.length_cons, List.length_nil]
      omega

/-- Shape of the buffer after the first three item writes and the two
growing slice assignments of `send`. -/
theorem shape_slices (L : ℕ) (tb ib : List ℕ) (htb : tb.length = 8) :
    pySetSlice (pySetSlice ((((List.replicate (L + 15) (0:ℕ)).set 0 0).set 1 1).set 2 0)
        3 10 tb) 11 12 ib
      = 0 :: 1 :: 0 :: (tb ++ (ib ++ List.replicate (L + 4) 0)) := by
  have e1 : List.replicate (L + 15) (0:ℕ) = 0 :: 0 :: 0 :: List.replicate (L + 12) 0 := by
    have h : L + 15 = 3 + (L + 12) := by omega
    rw [h, List.replicate_add]
    rfl
  rw [e1]
  have e2 : pySetSlice (0 :: 1 :: 0 :: List.replicate (L + 12) (0:ℕ)) 3 10 tb
      = 0 :: 1 :: 0 :: (tb ++ List.replicate (L + 5) 0) := by
    unfold pySetSlice
    have hd : (0 :: 1 :: 0 :: List.replicate (L + 12) (0:ℕ)).drop (max 3 10)
        = List.replicate (L + 5) 0 := by
      show (List.replicate (L + 12) (0:ℕ)).drop 7 = _
      rw [List.drop_replicate, show L + 12 - 7 = L + 5 by omega]
    rw [hd]
    rfl
  show pySetSlice (pySetSlice (0 :: 1 :: 0 :: List.replicate (L + 12) (0:ℕ)) 3 10 tb) 11 12 ib = _
  rw [e2]
  unfold pySetSlice
  have ht : (0 :: 1 :: 0 :: (tb ++ List.replicate (L + 5) (0:ℕ))).take 11 = 0 :: 1 :: 0 :: tb := by
    show 0 :: 1 :: 0 :: (tb ++ List.replicate (L + 5) (0:ℕ)).take 8 = _
    rw [List.take_append_of_le_length htb.ge, List.take_of_length_le htb.le]
  have hd : (0 :: 1 :: 0 :: (tb ++ List.replicate (L + 5) (0:ℕ))).drop (max 11 12)
      = List.replicate (L + 4) 0 := by
    show (tb ++ List.replicate (L + 5) (0:ℕ)).drop 9 = _
    rw [show (9:ℕ) = tb.length + 1 by rw [htb], List.drop_append, List.drop_replicate,
      show L + 5 - 1 = L + 4 by omega]
  rw [ht, hd]
  simp [List.append_assoc]

/-- Writing at offset `11 + j` of the canonical buffer shape lands at
offset `j` of the part after the timestamp bytes. -/
theorem form_set (tb : List ℕ) (htb : tb.length = 8) (l₂ : List ℕ) (j v : ℕ) :
    (0 :: 1 :: 0 :: (tb ++ l₂)).set (11 + j) v = 0 :: 1 :: 0 :: (tb ++ l₂.set j v) := by
  rw [show 11 + j = ((8 + j) + 1 + 1) + 1 by omega]
  rw [List.set_cons_succ, List.set_cons_succ, List.set_cons_succ]
  rw [List.set_append_right _ _ (by omega : tb.length ≤ 8 + j), htb,
    Nat.add_sub_cancel_left]

/-- Reading at offset `11 + j` of the canonical buffer shape. -/
theorem form_getD (tb : List ℕ) (htb : tb.length = 8) (l₂ : List ℕ) (j : ℕ) :
    (0 :: 1 :: 0 :: (tb ++ l₂)).getD (11 + j) 0 = l₂.getD j 0 := by
  rw [show 11 + j = ((8 + j) + 1 + 1) + 1 by omega]
  rw [List.getD_cons_succ, List.getD_cons_succ, List.getD_cons_succ]
  rw [List.getD_append_right _ _ _ _ (by omega : tb.length ≤ 8 + j), htb,
    Nat.add_sub_cancel_left]

end Xcudp

namespace Xcudp

/-- Final slice assignment `b[15:] = data` on the fully written buffer:
keeps the 15-byte header and replaces everything after it. -/
theorem final_slice (tb : List ℕ) (htb : tb.length = 8) (x0 x1 x2 x3 : ℕ) (L : ℕ)
    (data : List ℕ) :
    pySetSlice (0 :: 1 :: 0 :: (tb ++ x0 :: x1 :: x2 :: x3 :: List.replicate (L + 2) 0)) 15
        (0 :: 1 :: 0 :: (tb ++ x0 :: x1 :: x2 :: x3 :: List.replicate (L + 2) 0)).length data
      = 0 :: 1 :: 0 :: (tb ++ x0 :: x1 :: x2 :: x3 :: data) := by
  unfold pySetSlice
  have ht : (0 :: 1 :: 0 :: (tb ++ x0 :: x1 :: x2 :: x3 :: List.replicate (L + 2) (0:ℕ))).take 15
      = 0 :: 1 :: 0 :: (tb ++ [x0, x1, x2, x3]) := by
    show 0 :: 1 :: 0 :: (tb ++ x0 :: x1 :: x2 :: x3 :: List.replicate (L + 2) (0:ℕ)).take 12 = _
    rw [show (12:ℕ) = tb.length + 4 by rw [htb], List.take_append]
    rfl
  have hd : (0 :: 1 :: 0 :: (tb ++ x0 :: x1 :: x2 :: x3 :: List.replicate (L + 2) (0:ℕ))).drop
      (max 15 (0 :: 1 :: 0 :: (tb ++ x0 :: x1 :: x2 :: x3 :: List.replicate (L + 2) 0)).length)
      = [] :=
    List.drop_eq_nil_of_le (le_max_right _ _)
  rw [ht, hd]
  simp [List.append_assoc]

/-- Characterization of a successful `send`: with the length code, the
identifier, the channel and the millisecond timestamp all in encodable
range, `send` succeeds, records the playback epoch, and transmits the wire
frame in the exact layout produced by the Python byte assembly (including
the buffer growth caused by the two slice assignments). -/
theorem send_ok_form (st : BusState) (msg : Message) (now : ℚ)
    (hopen : st._open = true)
    (hdlc0 : 0 ≤ msg.dlc) (hdlc1 : msg.dlc < 16)
    (hid0 : 0 ≤ msg.arbitration_id) (hid1 : msg.arbitration_id < 2 ^ 16)
    (hch0 : 0 ≤ msg.channel) (hch1 : msg.channel < 256)
    (hms0 : 0 ≤ pythonRound ((st.playback_start_time.getD now + msg.timestamp) * 1000))
    (hms1 : pythonRound ((st.playback_start_time.getD now + msg.timestamp) * 1000) < 2 ^ 64) :
    send st msg now = .ok
      ({ _open := true, playback_start_time := some (st.playback_start_time.getD now) },
        [0, 1, 0]
          ++ toBytesLittle (pythonRound ((st.playback_start_time.getD now + msg.timestamp) * 1000)).toNat 8
          ++ [msg.arbitration_id.toNat % 256,
              if msg.is_fd then Nat.lor (msg.arbitration_id.toNat / 256 % 256) 16
              else msg.arbitration_id.toNat / 256 % 256,
              msg.channel.toNat, dlc2len.getD msg.dlc.toNat 0]
          ++ msg.data) := by
  obtain ⟨o, pst⟩ := st
  simp only [BusState._open] at hopen
  subst hopen
  have hms0' : 0 ≤ pythonRound ((pst.getD now + msg.timestamp) * 1000) := hms0
  have hms1' : pythonRound ((pst.getD now + msg.timestamp) * 1000) < 2 ^ 64 := hms1
  have hL64 : dlc2len.getD msg.dlc.toNat 0 ≤ 64 := dlc2len_getD_le _
  set L : ℕ := dlc2len.getD msg.dlc.toNat 0 with hLdef
  set tb : List ℕ := toBytesLittle (pythonRound ((pst.getD now + msg.timestamp) * 1000)).toNat 8
    with htbdef
  have htb : tb.length = 8 := toBytesLittle_length _ 8
  set A : ℕ := msg.arbitration_id.toNat with hAdef
  have hib : toBytesLittle A 2 = [A % 256, A / 256 % 256] := rfl
  have hrep4 : List.replicate (L + 4) (0:ℕ) = 0 :: List.replicate (L + 3) 0 := rfl
  have hrep3 : List.replicate (L + 3) (0:ℕ) = 0 :: List.replicate (L + 2) 0 := rfl
  have hchle : (L : ℤ) < 256 := by omega
  simp only [send]
  rw [check_if_open_true _ rfl, except_bind_ok]
  rw [datalen_ok _ hdlc0 hdlc1, except_bind_ok]
  rw [pySetItem_ok _ _ _ (by norm_num) (by norm_num)
    (by simp only [List.length_replicate]; omega), except_bind_ok]
  rw [pySetItem_ok _ _ _ (by norm_num) (by norm_num)
    (by simp only [List.length_set, List.length_replicate]; omega), except_bind_ok]
  rw [pySetItem_ok _ _ _ (by norm_num) (by norm_num)
    (by simp only [List.length_set, List.length_replicate]; omega), except_bind_ok]
  rw [int_to_bytes_ok _ _ hms0' hms1', except_bind_ok]
  rw [int_to_bytes_ok _ _ hid0 hid1, except_bind_ok]
  simp only [Int.toNat_zero, Int.toNat_one]
  rw [shape_slices L tb (toBytesLittle A 2) htb]
  rw [hib]
  simp only [List.cons_append, List.nil_append]
  cases hfd : msg.is_fd with
  | true =>
    simp only [eq_self_iff_true, if_true]
    rw [pyOrItem_ok _ _ _ (by
      simp only [List.length_cons, List.length_append, List.length_replicate, htb]; omega),
      except_bind_ok]
    rw [show (12:ℕ) = 11 + 1 from rfl, form_getD tb htb, form_set tb htb]
    simp only [List.getD_cons_succ, List.getD_cons_zero,
      List.set_cons_succ, List.set_cons_zero]
    rw [pySetItem_ok _ _ _ hch0 hch1 (by
      simp only [List.length_cons, List.length_append, List.length_replicate, htb]; omega),
      except_bind_ok]
    rw [show (13:ℕ) = 11 + 2 from rfl, form_set tb htb]
    simp only [List.set_cons_succ]
    rw [hrep4]
    simp only [List.set_cons_zero]
    rw [pyListGet_nonneg _ _ hdlc0 (by exact hdlc1), except_bind_ok]
    rw [pySetItem_ok _ _ _ (Int.natCast_nonneg _) hchle (by
      simp only [List.length_cons, List.length_append, List.length_replicate, htb]; omega),
      except_bind_ok]
    rw [show (14:ℕ) = 11 + 3 from rfl, form_set tb htb]
    simp only [List.set_cons_succ]
    rw [hrep3]
    simp only [List.set_cons_zero, Int.toNat_natCast]
    rw [final_slice tb htb]
    rfl
  | false =>
    simp only [Bool.false_eq_true, if_false]
    rw [pure_bind]
    rw [pySetItem_ok _ _ _ hch0 hch1 (by
      simp only [List.length_cons, List.length_append, List.length_replicate, htb]; omega),
      except_bind_ok]
    rw [show (13:ℕ) = 11 + 2 from rfl, form_set tb htb]
    simp only [List.set_cons_succ]
    rw [hrep4]
    simp only [List.set_cons_zero]
    rw [pyListGet_nonneg _ _ hdlc0 (by exact hdlc1), except_bind_ok]
    rw [pySetItem_ok _ _ _ (Int.natCast_nonneg _) hchle (by
      simp only [List.length_cons, List.length_append, List.length_replicate, htb]; omega),
      except_bind_ok]
    rw [show (14:ℕ) = 11 + 3 from rfl, form_set tb htb]
    simp only [List.set_cons_succ]
    rw [hrep3]
    simp only [List.set_cons_zero, Int.toNat_natCast]
    rw [final_slice tb htb]
    rfl

end Xcudp

namespace Xcudp

theorem except_bind_error {α β : Type} (e : PyError) (f : α → Except PyError β) :
    (Except.error e : Except PyError α) >>= f = .error e := rfl

theorem check_if_open_ok_inv (st : BusState) (u : Unit)
    (h : check_if_open st = .ok u) : st._open = true := by
  unfold check_if_open at h
  split at h
  · assumption
  · simp at h

theorem check_if_open_error_inv (st : BusState) (e : PyError)
    (h : check_if_open st = .error e) :
    st._open = false ∧ e = .CanError "Operation on closed bus" := by
  unfold check_if_open at h
  split at h
  · simp at h
  · cases h
    next hc => exact ⟨by simpa using hc, rfl⟩

theorem pyListGet_error_inv (l : List ℕ) (i : ℤ) (e : PyError)
    (h : pyListGet l i = .error e) : e = .IndexError := by
  unfold pyListGet at h
  split at h
  · simp at h
  split at h
  · simp at h
  · cases h; rfl

theorem datalen_ok_inv (c : ℤ) (n : ℕ) (h : datalen c = .ok n) : 15 ≤ n := by
  unfold datalen at h
  cases hg : pyListGet dlc2len c with
  | error e => rw [hg, except_bind_error] at h; simp at h
  | ok v =>
    rw [hg, except_bind_ok] at h
    simp only [pure, Except.pure, Except.ok.injEq] at h
    omega

theorem datalen_error_inv (c : ℤ) (e : PyError) (h : datalen c = .error e) :
    e = .IndexError := by
  unfold datalen at h
  cases hg : pyListGet dlc2len c with
  | error e' =>
    rw [hg, except_bind_error] at h
    cases h
    exact pyListGet_error_inv _ _ _ hg
  | ok v => rw [hg, except_bind_ok] at h; simp [pure, Except.pure] at h

theorem pySetItem_ok_inv (b : List ℕ) (i : ℕ) (v : ℤ) (b' : List ℕ)
    (h : pySetItem b i v = .ok b') : b'.length = b.length := by
  unfold pySetItem at h
  split at h
  · split at h
    · cases h; simp
    · simp at h
  · simp at h

theorem pySetItem_error_inv (b : List ℕ) (i : ℕ) (v : ℤ) (e : PyError)
    (h : pySetItem b i v = .error e) : e = .IndexError ∨ e = .ValueError := by
  unfold pySetItem at h
  split at h
  · split at h
    · simp at h
    · cases h; exact Or.inl rfl
  · cases h; exact Or.inr rfl

theorem int_to_bytes_ok_inv (n : ℤ) (len : ℕ) (bs : List ℕ)
    (h : int_to_bytes n len = .ok bs) : bs.length = len := by
  unfold int_to_bytes at h
  split at h
  · cases h; exact toBytesLittle_length _ _
  · simp at h

theorem int_to_bytes_error_inv (n : ℤ) (len : ℕ) (e : PyError)
    (h : int_to_bytes n len = .error e) : e = .OverflowError := by
  unfold int_to_bytes at h
  split at h
  · simp at h
  · cases h; rfl

theorem pyOrItem_ok_inv (b : List ℕ) (i : ℕ) (v : ℕ) (b' : List ℕ)
    (h : pyOrItem b i v = .ok b') : b'.length = b.length := by
  unfold pyOrItem at h
  split at h
  · cases h; simp
  · simp at h

theorem pyOrItem_error_inv (b : List ℕ) (i : ℕ) (v : ℕ) (e : PyError)
    (h : pyOrItem b i v = .error e) : e = .IndexError := by
  unfold pyOrItem at h
  split at h
  · simp at h
  · cases h; rfl

theorem length_pySetSlice (b : List ℕ) (i j : ℕ) (xs : List ℕ) :
    (pySetSlice b i j xs).length = min i b.length + xs.length + (b.length - max i j) := by
  simp [pySetSlice]
  omega

end Xcudp

namespace Xcudp

/-- Inversion for a successful `send`: the bus must have been open, the
returned state records the playback epoch (set on the first call, kept
afterwards), and the transmitted datagram always has length
`15 + len(data)` — whatever the length code said. -/
theorem send_ok_inv (st : BusState) (msg : Message) (now : ℚ) (st' : BusState) (b : List ℕ)
    (h : send st msg now = .ok (st', b)) :
    st._open = true ∧
    st' = { _open := true, playback_start_time := some (st.playback_start_time.getD now) } ∧
    b.length = 15 + msg.data.length := by
  simp only [send] at h
  cases hc : check_if_open st with
  | error e => rw [hc, except_bind_error] at h; simp at h
  | ok u =>
  rw [hc, except_bind_ok] at h
  have hopen : st._open = true := check_if_open_ok_inv st u hc
  cases hn : datalen msg.dlc with
  | error e => rw [hn, except_bind_error] at h; simp at h
  | ok n =>
  rw [hn, except_bind_ok] at h
  have hn15 : 15 ≤ n := datalen_ok_inv _ _ hn
  cases h1 : pySetItem (List.replicate n 0) 0 0 with
  | error e => rw [h1, except_bind_error] at h; simp at h
  | ok b1 =>
  rw [h1, except_bind_ok] at h
  have hb1 : b1.length = n := by
    have := pySetItem_ok_inv _ _ _ _ h1
    simpa using this
  cases h2 : pySetItem b1 1 1 with
  | error e => rw [h2, except_bind_error] at h; simp at h
  | ok b2 =>
  rw [h2, except_bind_ok] at h
  have hb2 : b2.length = n := by rw [pySetItem_ok_inv _ _ _ _ h2, hb1]
  cases h3 : pySetItem b2 2 0 with
  | error e => rw [h3, except_bind_error] at h; simp at h
  | ok b3 =>
  rw [h3, except_bind_ok] at h
  have hb3 : b3.length = n := by rw [pySetItem_ok_inv _ _ _ _ h3, hb2]
  cases h4 : int_to_bytes (pythonRound ((st.playback_start_time.getD now + msg.timestamp) * 1000)) 8 with
  | error e => rw [h4, except_bind_error] at h; simp at h
  | ok tb =>
  rw [h4, except_bind_ok] at h
  have htb : tb.length = 8 := int_to_bytes_ok_inv _ _ _ h4
  cases h5 : int_to_bytes msg.arbitration_id 2 with
  | error e => rw [h5, except_bind_error] at h; simp at h
  | ok ib =>
  rw [h5, except_bind_ok] at h
  have hib : ib.length = 2 := int_to_bytes_ok_inv _ _ _ h5
  have hs1 : (pySetSlice b3 3 10 tb).length = n + 1 := by
    rw [length_pySetSlice, hb3, htb]
    omega
  have hs2 : (pySetSlice (pySetSlice b3 3 10 tb) 11 12 ib).length = n + 2 := by
    rw [length_pySetSlice, hs1, hib]
    omega
  cases hfd : msg.is_fd with
  | true =>
    rw [hfd] at h
    simp only [eq_self_iff_true, if_true] at h
    cases h6 : pyOrItem (pySetSlice (pySetSlice b3 3 10 tb) 11 12 ib) 12 16 with
    | error e => rw [h6, except_bind_error] at h; simp at h
    | ok y =>
    rw [h6, except_bind_ok] at h
    have hy : y.length = n + 2 := by rw [pyOrItem_ok_inv _ _ _ _ h6, hs2]
    cases h7 : pySetItem y 13 msg.channel with
    | error e => rw [h7, except_bind_error] at h; simp at h
    | ok c1 =>
    rw [h7, except_bind_ok] at h
    have hc1 : c1.length = n + 2 := by rw [pySetItem_ok_inv _ _ _ _ h7, hy]
    cases h8 : pyListGet dlc2len msg.dlc with
    | error e => rw [h8, except_bind_error] at h; simp at h
    | ok v =>
    rw [h8, except_bind_ok] at h
    cases h9 : pySetItem c1 14 (v : ℤ) with
    | error e => rw [h9, except_bind_error] at h; simp at h
    | ok c2 =>
    rw [h9, except_bind_ok] at h
    have hc2 : c2.length = n + 2 := by rw [pySetItem_ok_inv _ _ _ _ h9, hc1]
    simp only [if_pos trivial, pure, Except.pure, Except.ok.injEq, Prod.mk.injEq] at h
    obtain ⟨hst, hb⟩ := h
    refine ⟨hopen, ?_, ?_⟩
    · rw [← hst, hopen]
    · rw [← hb, length_pySetSlice, hc2]
      omega
  | false =>
    rw [hfd] at h
    simp only [Bool.false_eq_true, if_false, pure_bind] at h
    cases h7 : pySetItem (pySetSlice (pySetSlice b3 3 10 tb) 11 12 ib) 13 msg.channel with
    | error e => rw [h7, except_bind_error] at h; simp at h
    | ok c1 =>
    rw [h7, except_bind_ok] at h
    have hc1 : c1.length = n + 2 := by rw [pySetItem_ok_inv _ _ _ _ h7, hs2]
    cases h8 : pyListGet dlc2len msg.dlc with
    | error e => rw [h8, except_bind_error] at h; simp at h
    | ok v =>
    rw [h8, except_bind_ok] at h
    cases h9 : pySetItem c1 14 (v : ℤ) with
    | error e => rw [h9, except_bind_error] at h; simp at h
    | ok c2 =>
    rw [h9, except_bind_ok] at h
    have hc2 : c2.length = n + 2 := by rw [pySetItem_ok_inv _ _ _ _ h9, hc1]
    simp only [if_pos trivial, pure, Except.pure, Except.ok.injEq, Prod.mk.injEq] at h
    obtain ⟨hst, hb⟩ := h
    refine ⟨hopen, ?_, ?_⟩
    · rw [← hst, hopen]
    · rw [← hb, length_pySetSlice, hc2]
      omega

end Xcudp

namespace Xcudp

/-- Classification of every error `send` can surface: the closed-bus check,
an out-of-range length code (IndexError), a timestamp or identifier that
does not fit its field (OverflowError), or a channel byte out of range
(ValueError).  In particular the dead `all_sent` branch never fires: `send`
never raises the delivery error. -/
theorem send_error_inv (st : BusState) (msg : Message) (now : ℚ) (e : PyError)
    (h : send st msg now = .error e) :
    e = .CanError "Operation on closed bus" ∨ e = .IndexError ∨
      e = .OverflowError ∨ e = .ValueError := by
  simp only [send] at h
  cases hc : check_if_open st with
  | error e' =>
    rw [hc, except_bind_error] at h
    cases h
    exact Or.inl (check_if_open_error_inv st _ hc).2
  | ok u =>
  rw [hc, except_bind_ok] at h
  cases hn : datalen msg.dlc with
  | error e' =>
    rw [hn, except_bind_error] at h
    cases h
    exact Or.inr (Or.inl (datalen_error_inv _ _ hn))
  | ok n =>
  rw [hn, except_bind_ok] at h
  cases h1 : pySetItem (List.replicate n 0) 0 0 with
  | error e' =>
    rw [h1, except_bind_error] at h
    cases h
    rcases pySetItem_error_inv _ _ _ _ h1 with h' | h'
    · exact Or.inr (Or.inl h')
    · exact Or.inr (Or.inr (Or.inr h'))
  | ok b1 =>
  rw [h1, except_bind_ok] at h
  cases h2 : pySetItem b1 1 1 with
  | error e' =>
    rw [h2, except_bind_error] at h
    cases h
    rcases pySetItem_error_inv _ _ _ _ h2 with h' | h'
    · exact Or.inr (Or.inl h')
    · exact Or.inr (Or.inr (Or.inr h'))
  | ok b2 =>
  rw [h2, except_bind_ok] at h
  cases h3 : pySetItem b2 2 0 with
  | error e' =>
    rw [h3, except_bind_error] at h
    cases h
    rcases pySetItem_error_inv _ _ _ _ h3 with h' | h'
    · exact Or.inr (Or.inl h')
    · exact Or.inr (Or.inr (Or.inr h'))
  | ok b3 =>
  rw [h3, except_bind_ok] at h
  cases h4 : int_to_bytes (pythonRound ((st.playback_start_time.getD now + msg.timestamp) * 1000)) 8 with
  | error e' =>
    rw [h4, except_bind_error] at h
    cases h
    exact Or.inr (Or.inr (Or.inl (int_to_bytes_error_inv _ _ _ h4)))
  | ok tb =>
  rw [h4, except_bind_ok] at h
  cases h5 : int_to_bytes msg.arbitration_id 2 with
  | error e' =>
    rw [h5, except_bind_error] at h
    cases h
    exact Or.inr (Or.inr (Or.inl (int_to_bytes_error_inv _ _ _ h5)))
  | ok ib =>
  rw [h5, except_bind_ok] at h
  cases hfd : msg.is_fd with
  | true =>
    rw [hfd] at h
    simp only [eq_self_iff_true, if_true] at h
    cases h6 : pyOrItem (pySetSlice (pySetSlice b3 3 10 tb) 11 12 ib) 12 16 with
    | error e' =>
      rw [h6, except_bind_error] at h
      cases h
      exact Or.inr (Or.inl (pyOrItem_error_inv _ _ _ _ h6))
    | ok y =>
    rw [h6, except_bind_ok] at h
    cases h7 : pySetItem y 13 msg.channel with
    | error e' =>
      rw [h7, except_bind_error] at h
      cases h
      rcases pySetItem_error_inv _ _ _ _ h7 with h' | h'
      · exact Or.inr (Or.inl h')
      · exact Or.inr (Or.inr (Or.inr h'))
    | ok c1 =>
    rw [h7, except_bind_ok] at h
    cases h8 : pyListGet dlc2len msg.dlc with
    | error e' =>
      rw [h8, except_bind_error] at h
      cases h
      exact Or.inr (Or.inl (pyListGet_error_inv _ _ _ h8))
    | ok v =>
    rw [h8, except_bind_ok] at h
    cases h9 : pySetItem c1 14 (v : ℤ) with
    | error e' =>
      rw [h9, except_bind_error] at h
      cases h
      rcases pySetItem_error_inv _ _ _ _ h9 with h' | h'
      · exact Or.inr (Or.inl h')
      · exact Or.inr (Or.inr (Or.inr h'))
    | ok c2 =>
    rw [h9, except_bind_ok] at h
    simp [pure, Except.pure] at h
  | false =>
    rw [hfd] at h
    simp only [Bool.false_eq_true, if_false, pure_bind] at h
    cases h7 : pySetItem (pySetSlice (pySetSlice b3 3 10 tb) 11 12 ib) 13 msg.channel with
    | error e' =>
      rw [h7, except_bind_error] at h
      cases h
      rcases pySetItem_error_inv _ _ _ _ h7 with h' | h'
      · exact Or.inr (Or.inl h')
      · exact Or.inr (Or.inr (Or.inr h'))
    | ok c1 =>
    rw [h7, except_bind_ok] at h
    cases h8 : pyListGet dlc2len msg.dlc with
    | error e' =>
      rw [h8, except_bind_error] at h
      cases h
      exact Or.inr (Or.inl (pyListGet_error_inv _ _ _ h8))
    | ok v =>
    rw [h8, except_bind_ok] at h
    cases h9 : pySetItem c1 14 (v : ℤ) with
    | error e' =>
      rw [h9, except_bind_error] at h
      cases h
      rcases pySetItem_error_inv _ _ _ _ h9 with h' | h'
      · exact Or.inr (Or.inl h')
      · exact Or.inr (Or.inr (Or.inr h'))
    | ok c2 =>
    rw [h9, except_bind_ok] at h
    simp [pure, Except.pure] at h

/-- When the bus is closed, `send` fails immediately with the closed-bus
error: no datagram is produced. -/
theorem send_closed (st : BusState) (msg : Message) (now : ℚ) (h : st._open = false) :
    send st msg now = .error (.CanError "Operation on closed bus") := by
  simp only [send]
  rw [show check_if_open st = .error (.CanError "Operation on closed bus") by
    simp [check_if_open, h], except_bind_error]

/-- When the bus is closed, `_recv_internal` fails immediately with the
closed-bus error. -/
theorem recv_closed (st : BusState) (q : List Message) (timeout : Option ℚ)
    (h : st._open = false) :
    recv_internal st q timeout = .error (.CanError "Operation on closed bus") := by
  simp only [recv_internal]
  rw [show check_if_open st = .error (.CanError "Operation on closed bus") by
    simp [check_if_open, h], except_bind_error]

end Xcudp

namespace Xcudp

section Registry

variable {K Q : Type} [DecidableEq K] [DecidableEq Q]

theorem chanLookup_chanSet_self (reg : Registry K Q) (k : K) (v : List Q) :
    chanLookup (chanSet reg k v) k = some v := by
  induction reg with
  | nil => simp [chanSet, chanLookup]
  | cons p rest ih =>
    obtain ⟨k', v'⟩ := p
    by_cases h : k' = k
    · simp [chanSet, chanLookup, h]
    · simp [chanSet, chanLookup, h, ih]

theorem chanLookup_register_self (reg : Registry K Q) (k : K) (q : Q) :
    chanLookup (chanRegister reg k q) k = some ((chanLookup reg k).getD [] ++ [q]) := by
  unfold chanRegister
  cases hl : chanLookup reg k with
  | some cur => simp [hl, chanLookup_chanSet_self]
  | none => simp [hl, chanLookup_chanSet_self]

theorem register_fold_some (k : K) (qs : List Q) :
    ∀ (reg : Registry K Q) (cur : List Q), chanLookup reg k = some cur →
      chanLookup (qs.foldl (fun r q => chanRegister r k q) reg) k = some (cur ++ qs) := by
  induction qs with
  | nil => intro reg cur hl; simpa using hl
  | cons x xs ih =>
    intro reg cur hl
    simp only [List.foldl_cons]
    rw [ih (chanRegister reg k x) (cur ++ [x])
      (by rw [chanLookup_register_self, hl]; simp)]
    simp

theorem chanLookup_chanDel_self (reg : Registry K Q) (k : K) :
    chanLookup (chanDel reg k) k = none := by
  induction reg with
  | nil => rfl
  | cons p rest ih =>
    obtain ⟨k', v'⟩ := p
    by_cases h : k' = k
    · simp [chanDel, h, ih]
    · simp [chanDel, chanLookup, h, ih]

theorem chanKeys_chanDel (reg : Registry K Q) (k : K) :
    k ∉ chanKeys (chanDel reg k) := by
  induction reg with
  | nil => simp [chanDel, chanKeys]
  | cons p rest ih =>
    obtain ⟨k', v'⟩ := p
    by_cases h : k' = k
    · simpa [chanDel, h] using ih
    · simp only [chanDel, if_neg h, chanKeys, List.map_cons, List.mem_cons]
      push_neg
      refine ⟨fun hk => h hk.symm, ?_⟩
      simpa [chanKeys] using ih

/-- One deregistration step, on a registry whose entry for `k` is a
permutation of `r :: tail` with `tail` nonempty: the step succeeds and the
entry shrinks to the erased list. -/
theorem chanDeregister_step (reg : Registry K Q) (k : K) (r : Q) (cur : List Q)
    (hl : chanLookup reg k = some cur) (hmem : r ∈ cur)
    (hne : (cur.erase r).isEmpty = false) :
    chanDeregister reg k r = .ok (chanSet reg k (cur.erase r)) := by
  unfold chanDeregister
  rw [hl]
  simp [hmem, hne]

/-- Folding deregistrations over `removed` when the current entry is a
permutation of `removed ++ [q]` always succeeds and leaves exactly `[q]`. -/
theorem dereg_fold (k : K) (q : Q) (removed : List Q) :
    ∀ (reg : Registry K Q) (cur : List Q), chanLookup reg k = some cur →
      cur.Perm (removed ++ [q]) →
      ∃ reg2, removed.foldlM (fun r x => chanDeregister r k x) reg = Except.ok reg2 ∧
        chanLookup reg2 k = some [q] := by
  induction removed with
  | nil =>
    intro reg cur hl hperm
    refine ⟨reg, rfl, ?_⟩
    rw [hl]
    have hcur : cur = [q] := List.Perm.eq_singleton (by simpa using hperm)
    rw [hcur]
  | cons r rest ih =>
    intro reg cur hl hperm
    have hmem : r ∈ cur := hperm.mem_iff.mpr (by simp)
    have hperm' : (cur.erase r).Perm (rest ++ [q]) := by
      have h1 := hperm.erase r
      simpa using h1
    have hlen : (cur.erase r).length = rest.length + 1 := by
      simpa using hperm'.length_eq
    have hne : (cur.erase r).isEmpty = false := by
      cases herase : cur.erase r with
      | nil => rw [herase] at hlen; simp at hlen
      | cons a as => simp
    rw [List.foldlM_cons, chanDeregister_step reg k r cur hl hmem hne, except_bind_ok]
    exact ih _ _ (chanLookup_chanSet_self reg k (cur.erase r)) hperm'

end Registry

end Xcudp

namespace Xcudp

section Lifecycle

variable {K Q : Type} [DecidableEq K] [DecidableEq Q]

theorem shutdown_closed (st : BusState) (reg : Registry K Q) (k : K) (q : Q)
    (h : st._open = false) :
    shutdown st reg k q = .error (.CanError "Operation on closed bus") := by
  simp only [shutdown]
  rw [show check_if_open st = .error (.CanError "Operation on closed bus") by
    simp [check_if_open, h], except_bind_error]

theorem shutdown_ok_inv (st : BusState) (reg : Registry K Q) (k : K) (q : Q)
    (st' : BusState) (reg' : Registry K Q)
    (h : shutdown st reg k q = .ok (st', reg')) :
    st._open = true ∧ st'._open = false ∧ chanDeregister reg k q = .ok reg' := by
  simp only [shutdown] at h
  cases hc : check_if_open st with
  | error e => rw [hc, except_bind_error] at h; simp at h
  | ok u =>
  rw [hc, except_bind_ok] at h
  cases hd : chanDeregister reg k q with
  | error e => rw [hd, except_bind_error] at h; simp at h
  | ok reg2 =>
  rw [hd, except_bind_ok] at h
  simp only [pure, Except.pure, Except.ok.injEq, Prod.mk.injEq] at h
  obtain ⟨h1, h2⟩ := h
  refine ⟨check_if_open_ok_inv st u hc, ?_, ?_⟩
  · rw [← h1]
  · rw [h2]

/-- Successful shutdown on an open bus: the state transitions to Closed and
the queue is deregistered. -/
theorem shutdown_ok (st : BusState) (reg : Registry K Q) (k : K) (q : Q)
    (reg' : Registry K Q) (hopen : st._open = true)
    (hd : chanDeregister reg k q = .ok reg') :
    shutdown st reg k q = .ok ({ st with _open := false }, reg') := by
  simp only [shutdown]
  rw [check_if_open_true st hopen, except_bind_ok, hd, except_bind_ok]
  rfl

end Lifecycle

theorem recv_nonempty (st : BusState) (m : Message) (rest : List Message)
    (timeout : Option ℚ) (h : st._open = true)
    (ht : ∀ x : ℚ, timeout = some x → 0 ≤ x) :
    recv_internal st (m :: rest) timeout = .ok (.result (some m) false rest) := by
  simp only [recv_internal]
  rw [check_if_open_true st h, except_bind_ok]
  cases timeout with
  | none => rfl
  | some x =>
    have hx := not_lt.mpr (ht x rfl)
    simp only [hx, if_false]
    rfl

theorem recv_empty_some (st : BusState) (t : ℚ) (h : st._open = true)
    (ht : 0 ≤ t) :
    recv_internal st [] (some t) = .ok (.result none false []) := by
  simp only [recv_internal]
  rw [check_if_open_true st h, except_bind_ok, if_neg (not_lt.mpr ht)]
  rfl

theorem sendWorld_ok_inv {K Q : Type} (w : World K Q) (msg : Message) (now : ℚ)
    (w' : World K Q) (b : List ℕ) (h : sendWorld w msg now = .ok (w', b)) :
    w'.channels = w.channels ∧ w'.queues = w.queues ∧
      send w.bus msg now = .ok (w'.bus, b) := by
  simp only [sendWorld] at h
  cases hs : send w.bus msg now with
  | error e => rw [hs, except_bind_error] at h; simp at h
  | ok r =>
  rw [hs, except_bind_ok] at h
  simp only [pure, Except.pure, Except.ok.injEq, Prod.mk.injEq] at h
  obtain ⟨h1, h2⟩ := h
  subst h1
  subst h2
  exact ⟨rfl, rfl, rfl⟩

theorem sendWorld_error_inv {K Q : Type} (w : World K Q) (msg : Message) (now : ℚ)
    (e : PyError) (h : sendWorld w msg now = .error e) :
    send w.bus msg now = .error e := by
  simp only [sendWorld] at h
  cases hs : send w.bus msg now with
  | error e' =>
    rw [hs, except_bind_error] at h
    cases h
    rfl
  | ok r => rw [hs, except_bind_ok] at h; simp [pure, Except.pure] at h

/-- Python 3 rounding of zero. -/
theorem pythonRound_zero : pythonRound 0 = 0 := by
  unfold pythonRound
  norm_num [Rat.floor]

/-- Rounding of the millisecond expression at epoch 0 and timestamp 0,
needed to evaluate `send` on concrete inputs. -/
theorem pythonRound_zero_mul : pythonRound (((0:ℚ) + 0) * 1000) = 0 := by
  rw [show ((0:ℚ) + 0) * 1000 = 0 by norm_num, pythonRound_zero]

end Xcudp

namespace Xcudp

/-- Rounding helper: the millisecond value is 0 whenever the absolute
timestamp is 0. -/
theorem pythonRound_eq_zero (x : ℚ) (h : x = 0) : pythonRound (x * 1000) = 0 := by
  rw [h, show (0:ℚ) * 1000 = 0 by norm_num, pythonRound_zero]

end Xcudp

namespace Xcudp

/-- Length of the assembled wire frame shape: 15 header bytes plus the
payload, whatever the payload length is. -/
theorem form_length (tb : List ℕ) (htb : tb.length = 8) (x0 x1 x2 x3 : ℕ)
    (data : List ℕ) :
    (([0, 1, 0] : List ℕ) ++ tb ++ [x0, x1, x2, x3] ++ data).length = 15 + data.length := by
  simp [htb]
  omega

/-- C1: for every logical frame whose length code is in [0,15] and whose
payload length equals Length Table[length_code], and for every epoch,
whenever `send` builds a wire frame it is a byte sequence of exact length
Length Table[length_code] + 15 — for all 16 codes. -/
theorem C1_wire_frame_length (st : BusState) (msg : Message) (now : ℚ)
    (st' : BusState) (b : List ℕ)
    (hsend : send st msg now = .ok (st', b))
    (h0 : 0 ≤ msg.dlc) (h1 : msg.dlc < 16)
    (hlen : msg.data.length = dlc2len.getD msg.dlc.toNat 0) :
    b.length = dlc2len.getD msg.dlc.toNat 0 + 15 := by
  have h := (send_ok_inv _ _ _ _ _ hsend).2.2
  omega

/-- C1 witness: a concrete frame with the largest code 15 and a matching
64-byte payload encodes to a 79-byte wire frame. -/
theorem C1_wire_frame_length_witness :
    ∃ st' b, send ⟨true, some 0⟩ ⟨0, 291, false, 2, 15, List.replicate 64 1⟩ 0
        = .ok (st', b) ∧ b.length = dlc2len.getD (15:ℤ).toNat 0 + 15 := by
  have hform := send_ok_form ⟨true, some 0⟩ ⟨0, 291, false, 2, 15, List.replicate 64 1⟩ 0 rfl
    (by decide) (by decide) (by decide) (by norm_num) (by decide) (by decide)
    (by rw [pythonRound_eq_zero ((⟨true, some 0⟩ : BusState).playback_start_time.getD 0
          + (⟨0, 291, false, 2, 15, List.replicate 64 1⟩ : Message).timestamp) (by norm_num)])
    (by rw [pythonRound_eq_zero ((⟨true, some 0⟩ : BusState).playback_start_time.getD 0
          + (⟨0, 291, false, 2, 15, List.replicate 64 1⟩ : Message).timestamp) (by norm_num)]
        norm_num)
  exact ⟨_, _, hform,
    C1_wire_frame_length _ _ _ _ _ hform (by decide) (by decide) (by decide)⟩

/-- C2 counterexample: a frame with length code 0 (expected payload length
0) but a 1-byte payload is encoded and transmitted without any error — no
PayloadLengthMismatch exists in the code — and the transmitted frame has
the wrong size 16 instead of Length Table[0] + 15 = 15. -/
theorem C2_counterexample :
    ([1] : List ℕ).length ≠ dlc2len.getD 0 0 ∧
    send ⟨true, some 0⟩ ⟨0, 0, false, 0, 0, [1]⟩ 0
      = .ok (⟨true, some 0⟩, [0, 1, 0, 0, 0, 0, 0, 0, 0, 0, 0, 0, 0, 0, 0, 1]) ∧
    ([0, 1, 0, 0, 0, 0, 0, 0, 0, 0, 0, 0, 0, 0, 0, 1] : List ℕ).length
      ≠ dlc2len.getD 0 0 + 15 := by
  refine ⟨by decide, ?_, by decide⟩
  have hform := send_ok_form ⟨true, some 0⟩ ⟨0, 0, false, 0, 0, [1]⟩ 0 rfl
    (by decide) (by decide) (by decide) (by norm_num) (by decide) (by decide)
    (by rw [pythonRound_eq_zero ((⟨true, some 0⟩ : BusState).playback_start_time.getD 0
          + (⟨0, 0, false, 0, 0, [1]⟩ : Message).timestamp) (by norm_num)])
    (by rw [pythonRound_eq_zero ((⟨true, some 0⟩ : BusState).playback_start_time.getD 0
          + (⟨0, 0, false, 0, 0, [1]⟩ : Message).timestamp) (by norm_num)]
        norm_num)
  rw [pythonRound_eq_zero ((⟨true, some 0⟩ : BusState).playback_start_time.getD 0
    + (⟨0, 0, false, 0, 0, [1]⟩ : Message).timestamp) (by norm_num)] at hform
  exact hform.trans (by decide)

/-- C2 amended: `send` performs no payload-length validation at all.  For
every open bus and frame with a valid length code (and encodable
identifier, channel and timestamp), `send` succeeds even when the payload
length differs from Length Table[length_code]; the transmitted frame then
has length 15 + len(payload), which is not Length Table[length_code] + 15. -/
theorem C2_no_payload_validation (st : BusState) (msg : Message) (now : ℚ)
    (hopen : st._open = true)
    (hdlc0 : 0 ≤ msg.dlc) (hdlc1 : msg.dlc < 16)
    (hid0 : 0 ≤ msg.arbitration_id) (hid1 : msg.arbitration_id < 2 ^ 16)
    (hch0 : 0 ≤ msg.channel) (hch1 : msg.channel < 256)
    (hms0 : 0 ≤ pythonRound ((st.playback_start_time.getD now + msg.timestamp) * 1000))
    (hms1 : pythonRound ((st.playback_start_time.getD now + msg.timestamp) * 1000) < 2 ^ 64)
    (hmis : msg.data.length ≠ dlc2len.getD msg.dlc.toNat 0) :
    ∃ st' b, send st msg now = .ok (st', b) ∧ b.length = 15 + msg.data.length ∧
      b.length ≠ dlc2len.getD msg.dlc.toNat 0 + 15 := by
  refine ⟨_, _, send_ok_form st msg now hopen hdlc0 hdlc1 hid0 hid1 hch0 hch1 hms0 hms1,
    ?_, ?_⟩
  · exact form_length _ (toBytesLittle_length _ 8) _ _ _ _ _
  · rw [form_length _ (toBytesLittle_length _ 8)]
    omega

/-- C2 witness for the amended claim: the mismatched frame from the
counterexample is transmitted with length 16 = 15 + 1 ≠ 15. -/
theorem C2_no_payload_validation_witness :
    ∃ st' b, send ⟨true, some 0⟩ ⟨0, 0, false, 0, 0, [1]⟩ 0 = .ok (st', b) ∧
      b.length = 15 + ([1] : List ℕ).length ∧
      b.length ≠ dlc2len.getD (0:ℤ).toNat 0 + 15 := by
  exact C2_no_payload_validation ⟨true, some 0⟩ ⟨0, 0, false, 0, 0, [1]⟩ 0 rfl
    (by decide) (by decide) (by decide) (by norm_num) (by decide) (by decide)
    (by rw [pythonRound_eq_zero ((⟨true, some 0⟩ : BusState).playback_start_time.getD 0
          + (⟨0, 0, false, 0, 0, [1]⟩ : Message).timestamp) (by norm_num)])
    (by rw [pythonRound_eq_zero ((⟨true, some 0⟩ : BusState).playback_start_time.getD 0
          + (⟨0, 0, false, 0, 0, [1]⟩ : Message).timestamp) (by norm_num)]
        norm_num)
    (by decide)

/-- C3: once a bus has been shut down, every subsequent send, receive or
shutdown fails with the closed-bus error (`CanError "Operation on closed
bus"`); an erroring send returns no datagram, so nothing is transmitted,
and a second shutdown fails rather than being a no-op. -/
theorem C3_closed_bus {K Q : Type} [DecidableEq K] [DecidableEq Q] (st : BusState)
    (reg : Registry K Q) (k : K) (q : Q) (st' : BusState) (reg' : Registry K Q)
    (h : shutdown st reg k q = .ok (st', reg')) :
    (∀ msg now, send st' msg now = .error (.CanError "Operation on closed bus")) ∧
    (∀ mq timeout, recv_internal st' mq timeout
      = .error (.CanError "Operation on closed bus")) ∧
    (∀ (reg2 : Registry K Q) (k2 : K) (q2 : Q), shutdown st' reg2 k2 q2
      = .error (.CanError "Operation on closed bus")) := by
  have hcl := (shutdown_ok_inv _ _ _ _ _ _ h).2.1
  exact ⟨fun msg now => send_closed _ msg now hcl,
    fun mq t => recv_closed _ mq t hcl,
    fun r2 k2 q2 => shutdown_closed _ r2 k2 q2 hcl⟩

/-- C3 witness: shutting down a concrete open bus succeeds, and each of the
operations then fails with the closed-bus error. -/
theorem C3_closed_bus_witness :
    send ⟨false, none⟩ ⟨0, 0, false, 0, 0, []⟩ 0
      = .error (.CanError "Operation on closed bus") ∧
    recv_internal ⟨false, none⟩ [] (some 1)
      = .error (.CanError "Operation on closed bus") ∧
    shutdown (⟨false, none⟩ : BusState) ([] : Registry ℕ ℕ) 0 5
      = .error (.CanError "Operation on closed bus") := by
  have h := @C3_closed_bus ℕ ℕ _ _ ⟨true, none⟩ [(0, [5])] 0 5 ⟨false, none⟩ []
    (by decide)
  exact ⟨h.1 ⟨0, 0, false, 0, 0, []⟩ 0, h.2.1 [] (some 1), h.2.2 [] 0 5⟩

/-- C4: registering N distinct queues under one channel key and then
deregistering any N-1 of them, in any order, always succeeds and leaves the
registry mapping the key to exactly the remaining queue; deregistering that
last queue removes the key entirely from the set of active keys. -/
theorem C4_registry {K Q : Type} [DecidableEq K] [DecidableEq Q] (reg0 : Registry K Q)
    (k : K) (qs removed : List Q) (q : Q)
    (h0 : chanLookup reg0 k = none) (hnd : qs.Nodup)
    (hperm : (removed ++ [q]).Perm qs) :
    ∃ reg2, removed.foldlM (fun r x => chanDeregister r k x)
        (qs.foldl (fun r x => chanRegister r k x) reg0) = Except.ok reg2 ∧
      chanLookup reg2 k = some [q] ∧
      ∃ reg3, chanDeregister reg2 k q = .ok reg3 ∧
        chanLookup reg3 k = none ∧ k ∉ chanKeys reg3 := by
  cases qs with
  | nil => simp at hperm
  | cons q1 qrest =>
    have hreg1 : chanLookup (chanRegister reg0 k q1) k = some [q1] := by
      rw [chanLookup_register_self, h0]
      rfl
    have hfold : chanLookup ((q1 :: qrest).foldl (fun r x => chanRegister r k x) reg0) k
        = some (q1 :: qrest) := by
      simp only [List.foldl_cons]
      rw [register_fold_some k qrest (chanRegister reg0 k q1) [q1] hreg1]
      rfl
    obtain ⟨reg2, hrun, hlk2⟩ :=
      dereg_fold k q removed _ (q1 :: qrest) hfold hperm.symm
    refine ⟨reg2, hrun, hlk2, chanDel reg2 k, ?_, chanLookup_chanDel_self reg2 k,
      chanKeys_chanDel reg2 k⟩
    unfold chanDeregister
    rw [hlk2]
    simp

/-- C4 witness: three queues registered under key 0, two deregistered out
of order; the entry shrinks to the remaining queue and vanishes after the
last deregistration. -/
theorem C4_registry_witness :
    ∃ reg2, ([3, 1] : List ℕ).foldlM (fun r x => chanDeregister r 0 x)
        (([1, 2, 3] : List ℕ).foldl (fun r x => chanRegister r 0 x) ([] : Registry ℕ ℕ))
        = Except.ok reg2 ∧
      chanLookup reg2 0 = some [2] ∧
      ∃ reg3, chanDeregister reg2 0 2 = .ok reg3 ∧
        chanLookup reg3 0 = none ∧ 0 ∉ chanKeys reg3 :=
  @C4_registry ℕ ℕ _ _ [] 0 [1, 2, 3] [3, 1] 2 (by decide) (by decide) (by decide)

/-- C7 counterexample: -1 is a length code outside [0,15], yet the length
lookup used by encoding does not fail: Python's negative indexing makes
`dlc2len[-1]` return 64, so `datalen(-1)` returns 64 + 15 = 79. -/
theorem C7_counterexample :
    ((-1 : ℤ) < 0 ∨ 15 < (-1 : ℤ)) ∧ datalen (-1) = .ok 79 := by
  exact ⟨Or.inl (by decide), by decide⟩

/-- C7 amended: the length-table lookup fails (IndexError) exactly for
codes above 15 or below -16; for codes in [0,15] it returns the fixed table
value (and `datalen` adds 15); codes in [-16,-1] alias the table from the
end, per Python list indexing. -/
theorem C7_length_lookup (c : ℤ) :
    ((c < -16 ∨ 15 < c) →
      pyListGet dlc2len c = .error .IndexError ∧ datalen c = .error .IndexError) ∧
    ((0 ≤ c ∧ c ≤ 15) →
      pyListGet dlc2len c = .ok (dlc2len.getD c.toNat 0) ∧
      datalen c = .ok (dlc2len.getD c.toNat 0 + 15)) ∧
    ((-16 ≤ c ∧ c < 0) →
      pyListGet dlc2len c = .ok (dlc2len.getD (16 - (-c).toNat) 0)) := by
  refine ⟨?_, ?_, ?_⟩
  · intro h
    have hget : pyListGet dlc2len c = .error .IndexError := by
      unfold pyListGet
      rw [if_neg (by simp [dlc2len]; omega), if_neg (by simp [dlc2len]; omega)]
    refine ⟨hget, ?_⟩
    unfold datalen
    rw [hget, except_bind_error]
  · intro h
    have hget := pyListGet_nonneg dlc2len c h.1 (by simp [dlc2len]; omega)
    refine ⟨hget, ?_⟩
    unfold datalen
    rw [hget, except_bind_ok]
    rfl
  · intro h
    unfold pyListGet
    rw [if_neg (by omega), if_pos (by simp [dlc2len]; omega)]
    rfl

/-- C7 witness: code 20 fails with IndexError; code 9 maps to 12 bytes
(so datalen returns 27); code -1 aliases the last table entry 64. -/
theorem C7_length_lookup_witness :
    (pyListGet dlc2len 20 = .error .IndexError ∧ datalen 20 = .error .IndexError) ∧
    (pyListGet dlc2len 9 = .ok (dlc2len.getD (9:ℤ).toNat 0) ∧
      datalen 9 = .ok (dlc2len.getD (9:ℤ).toNat 0 + 15)) ∧
    pyListGet dlc2len (-1) = .ok (dlc2len.getD (16 - ((1:ℤ)).toNat) 0) :=
  ⟨(C7_length_lookup 20).1 (by decide),
   (C7_length_lookup 9).2.1 (by decide),
   (C7_length_lookup (-1)).2.2 (by decide)⟩

/-- C8: on an open bus, for any valid timeout (`None` or a non-negative
duration — CPython's `queue.get` raises ValueError on a negative one),
`_recv_internal` returns `(frame, false)` when the delivery queue is
nonempty — the head, i.e. FIFO order, with the rest of the queue left —
and `(none, false)` when the queue is empty and a finite timeout
(including 0) elapses; the model distinguishes this returning outcome from
the blocked outcome of `timeout=None` on an empty queue, so a zero timeout
returns rather than blocking. -/
theorem C8_receive (st : BusState) (q : List Message) (t : Option ℚ)
    (hopen : st._open = true) (ht : ∀ x : ℚ, t = some x → 0 ≤ x) :
    (∀ m rest, q = m :: rest →
      recv_internal st q t = .ok (.result (some m) false rest)) ∧
    (q = [] → ∀ x : ℚ, t = some x →
      recv_internal st q t = .ok (.result none false [])) := by
  constructor
  · rintro m rest rfl
    exact recv_nonempty st m rest t hopen ht
  · rintro rfl x rfl
    exact recv_empty_some st x hopen (ht x rfl)

/-- C8 witness: a two-element queue yields its oldest element and keeps the
other; an empty queue with timeout 0 returns no message immediately. -/
theorem C8_receive_witness :
    recv_internal ⟨true, none⟩ [⟨0, 0, false, 0, 0, []⟩, ⟨1, 1, false, 0, 0, []⟩] (some 5)
      = .ok (.result (some ⟨0, 0, false, 0, 0, []⟩) false [⟨1, 1, false, 0, 0, []⟩]) ∧
    recv_internal ⟨true, none⟩ [] (some 0) = .ok (.result none false []) := by
  have h1 := C8_receive ⟨true, none⟩
    [⟨0, 0, false, 0, 0, []⟩, ⟨1, 1, false, 0, 0, []⟩] (some 5) rfl
    (fun x hx => by cases hx; norm_num)
  have h2 := C8_receive ⟨true, none⟩ [] (some 0) rfl
    (fun x hx => by cases hx; norm_num)
  exact ⟨h1.1 _ _ rfl, h2.2 rfl 0 rfl⟩

end Xcudp

namespace Xcudp

/-- The wire-frame shape re-associated into canonical cons form. -/
theorem form_assoc (tb : List ℕ) (x0 x1 x2 x3 : ℕ) (data : List ℕ) :
    (([0, 1, 0] : List ℕ) ++ tb ++ [x0, x1, x2, x3] ++ data)
      = 0 :: 1 :: 0 :: (tb ++ (x0 :: x1 :: x2 :: x3 :: data)) := by
  simp [List.append_assoc]

/-- Bytes 11 to 14 of the canonical wire-frame shape. -/
theorem canon_getD (tb : List ℕ) (htb : tb.length = 8) (x0 x1 x2 x3 : ℕ)
    (data : List ℕ) :
    ((0:ℕ) :: 1 :: 0 :: (tb ++ (x0 :: x1 :: x2 :: x3 :: data))).getD 11 0 = x0 ∧
    ((0:ℕ) :: 1 :: 0 :: (tb ++ (x0 :: x1 :: x2 :: x3 :: data))).getD 12 0 = x1 ∧
    ((0:ℕ) :: 1 :: 0 :: (tb ++ (x0 :: x1 :: x2 :: x3 :: data))).getD 13 0 = x2 ∧
    ((0:ℕ) :: 1 :: 0 :: (tb ++ (x0 :: x1 :: x2 :: x3 :: data))).getD 14 0 = x3 := by
  refine ⟨?_, ?_, ?_, ?_⟩
  · simpa using form_getD tb htb (x0 :: x1 :: x2 :: x3 :: data) 0
  · simpa using form_getD tb htb (x0 :: x1 :: x2 :: x3 :: data) 1
  · simpa using form_getD tb htb (x0 :: x1 :: x2 :: x3 :: data) 2
  · simpa using form_getD tb htb (x0 :: x1 :: x2 :: x3 :: data) 3

/-- The declared length byte sits at offset 14 of the canonical frame. -/
theorem canon_get14 (tb : List ℕ) (htb : tb.length = 8) (x0 x1 x2 L : ℕ)
    (data : List ℕ) :
    ((0:ℕ) :: 1 :: 0 :: (tb ++ (x0 :: x1 :: x2 :: L :: data))).get? 14 = some L := by
  have hstep : ((0:ℕ) :: 1 :: 0 :: (tb ++ (x0 :: x1 :: x2 :: L :: data))).get? 14
      = (tb ++ (x0 :: x1 :: x2 :: L :: data)).get? 11 := rfl
  rw [hstep, List.get?_append_right (by rw [htb]; omega), htb]
  rfl

/-- The payload occupies offsets 15.. of the canonical frame. -/
theorem canon_drop15 (tb : List ℕ) (htb : tb.length = 8) (x0 x1 x2 x3 : ℕ)
    (data : List ℕ) :
    ((0:ℕ) :: 1 :: 0 :: (tb ++ (x0 :: x1 :: x2 :: x3 :: data))).drop 15 = data := by
  have hstep : ((0:ℕ) :: 1 :: 0 :: (tb ++ (x0 :: x1 :: x2 :: x3 :: data))).drop 15
      = (tb ++ (x0 :: x1 :: x2 :: x3 :: data)).drop 12 := rfl
  rw [hstep, show (12:ℕ) = tb.length + 4 by rw [htb], List.drop_append]
  rfl

/-- Length of the canonical frame: 15 header bytes plus the payload. -/
theorem canon_length (tb : List ℕ) (htb : tb.length = 8) (x0 x1 x2 x3 : ℕ)
    (data : List ℕ) :
    ((0:ℕ) :: 1 :: 0 :: (tb ++ (x0 :: x1 :: x2 :: x3 :: data))).length
      = 15 + data.length := by
  simp [htb]
  omega

/-- The length table is injective: looking up a table value recovers its
code. -/
theorem dlc2len_indexOf_getD (c : ℕ) (hc : c < 16) :
    dlc2len.indexOf? (dlc2len.getD c 0) = some c := by
  interval_cases c <;> decide

/-- Decoding the encoded wire frame shape recovers the payload and the
length code. -/
theorem decode_form (tb : List ℕ) (htb : tb.length = 8) (x0 x1 x2 : ℕ) (code : ℕ)
    (hcode : code < 16) (data : List ℕ)
    (hdata : data.length = dlc2len.getD code 0) :
    decode (([0, 1, 0] : List ℕ) ++ tb ++ [x0, x1, x2, dlc2len.getD code 0] ++ data)
      = .ok ⟨code, data⟩ := by
  rw [form_assoc]
  have hlen : ((0:ℕ) :: 1 :: 0 :: (tb ++ (x0 :: x1 :: x2 :: dlc2len.getD code 0 :: data))).length
      = dlc2len.getD code 0 + 15 := by
    rw [canon_length tb htb, hdata]
    omega
  simp only [decode, canon_get14 tb htb]
  rw [if_pos hlen]
  simp only [dlc2len_indexOf_getD code hcode]
  rw [canon_drop15 tb htb]

/-- C5: for every frame with length code in [0,15], matching payload, and
encodable fields, and for every epoch, decoding the wire frame that `send`
transmits (decode modelled from the spec, §4.2) recovers the frame's
payload and length code. -/
theorem C5_roundtrip (st : BusState) (msg : Message) (now : ℚ)
    (hopen : st._open = true)
    (hdlc0 : 0 ≤ msg.dlc) (hdlc1 : msg.dlc < 16)
    (hid0 : 0 ≤ msg.arbitration_id) (hid1 : msg.arbitration_id < 2 ^ 16)
    (hch0 : 0 ≤ msg.channel) (hch1 : msg.channel < 256)
    (hms0 : 0 ≤ pythonRound ((st.playback_start_time.getD now + msg.timestamp) * 1000))
    (hms1 : pythonRound ((st.playback_start_time.getD now + msg.timestamp) * 1000) < 2 ^ 64)
    (hmatch : msg.data.length = dlc2len.getD msg.dlc.toNat 0) :
    ∃ st' b, send st msg now = .ok (st', b) ∧
      decode b = .ok ⟨msg.dlc.toNat, msg.data⟩ := by
  refine ⟨_, _, send_ok_form st msg now hopen hdlc0 hdlc1 hid0 hid1 hch0 hch1 hms0 hms1, ?_⟩
  exact decode_form _ (toBytesLittle_length _ 8) _ _ _ msg.dlc.toNat (by omega)
    msg.data hmatch

/-- C5 witness: the 8-byte scenario frame round-trips through
decode ∘ encode. -/
theorem C5_roundtrip_witness :
    ∃ st' b, send ⟨true, some 0⟩ ⟨0, 291, false, 2, 8, [1, 2, 3, 4, 5, 6, 7, 8]⟩ 0
        = .ok (st', b) ∧
      decode b = .ok ⟨(8:ℤ).toNat, [1, 2, 3, 4, 5, 6, 7, 8]⟩ :=
  C5_roundtrip ⟨true, some 0⟩ ⟨0, 291, false, 2, 8, [1, 2, 3, 4, 5, 6, 7, 8]⟩ 0 rfl
    (by decide) (by decide) (by decide) (by norm_num) (by decide) (by decide)
    (by rw [pythonRound_eq_zero ((⟨true, some 0⟩ : BusState).playback_start_time.getD 0
          + (⟨0, 291, false, 2, 8, [1, 2, 3, 4, 5, 6, 7, 8]⟩ : Message).timestamp) (by norm_num)])
    (by rw [pythonRound_eq_zero ((⟨true, some 0⟩ : BusState).playback_start_time.getD 0
          + (⟨0, 291, false, 2, 8, [1, 2, 3, 4, 5, 6, 7, 8]⟩ : Message).timestamp) (by norm_num)]
        norm_num)
    (by decide)

/-- Bit 4 is the only bit set in 0x10. -/
theorem testBit_sixteen_ne (j : ℕ) (hj : j ≠ 4) : Nat.testBit 16 j = false := by
  rw [show (16:ℕ) = 2 ^ 4 by norm_num]
  exact Nat.testBit_two_pow_of_ne fun h => hj h.symm

/-- C6 counterexample: for arbitration_id = 0x123 the encoder writes BOTH
identifier bytes — byte 12 of the wire frame equals the high identifier
byte 0x01, which is nonzero — so the claim's assertion that only one byte's
worth of the identifier is written (the §9 truncation defect) is false:
the slice assignment `b[11:12] = id.to_bytes(2,'little')` grows the buffer
and keeps both bytes. -/
theorem C6_counterexample :
    send ⟨true, some 0⟩ ⟨0, 291, false, 0, 0, []⟩ 0
      = .ok (⟨true, some 0⟩, [0, 1, 0, 0, 0, 0, 0, 0, 0, 0, 0, 35, 1, 0, 0]) ∧
    ([0, 1, 0, 0, 0, 0, 0, 0, 0, 0, 0, 35, 1, 0, 0] : List ℕ).getD 12 0 = 291 / 256 ∧
    (291 : ℕ) / 256 ≠ 0 := by
  refine ⟨?_, by decide, by decide⟩
  have hform := send_ok_form ⟨true, some 0⟩ ⟨0, 291, false, 0, 0, []⟩ 0 rfl
    (by decide) (by decide) (by decide) (by norm_num) (by decide) (by decide)
    (by rw [pythonRound_eq_zero ((⟨true, some 0⟩ : BusState).playback_start_time.getD 0
          + (⟨0, 291, false, 0, 0, []⟩ : Message).timestamp) (by norm_num)])
    (by rw [pythonRound_eq_zero ((⟨true, some 0⟩ : BusState).playback_start_time.getD 0
          + (⟨0, 291, false, 0, 0, []⟩ : Message).timestamp) (by norm_num)]
        norm_num)
  rw [pythonRound_eq_zero ((⟨true, some 0⟩ : BusState).playback_start_time.getD 0
    + (⟨0, 291, false, 0, 0, []⟩ : Message).timestamp) (by norm_num)] at hform
  exact hform.trans (by decide)

/-- C6 amended: for every frame with arbitration_id below 2^16 (and
encodable fields), `send` writes the identifier as a full two-byte
little-endian value at wire offsets 11-12; when is_extended_length is true
it additionally sets bit 0x10 of byte 12 without disturbing any other bit
of that byte, and when it is false byte 12 is exactly the high identifier
byte. -/
theorem C6_identifier_bytes (st : BusState) (msg : Message) (now : ℚ)
    (hopen : st._open = true)
    (hdlc0 : 0 ≤ msg.dlc) (hdlc1 : msg.dlc < 16)
    (hid0 : 0 ≤ msg.arbitration_id) (hid1 : msg.arbitration_id < 2 ^ 16)
    (hch0 : 0 ≤ msg.channel) (hch1 : msg.channel < 256)
    (hms0 : 0 ≤ pythonRound ((st.playback_start_time.getD now + msg.timestamp) * 1000))
    (hms1 : pythonRound ((st.playback_start_time.getD now + msg.timestamp) * 1000) < 2 ^ 64) :
    ∃ st' b, send st msg now = .ok (st', b) ∧
      b.getD 11 0 = msg.arbitration_id.toNat % 256 ∧
      (msg.is_fd = false →
        b.getD 12 0 = msg.arbitration_id.toNat / 256 ∧
        msg.arbitration_id.toNat = b.getD 11 0 + 256 * b.getD 12 0) ∧
      (msg.is_fd = true →
        (b.getD 12 0).testBit 4 = true ∧
        ∀ j, j ≠ 4 →
          (b.getD 12 0).testBit j = (msg.arbitration_id.toNat / 256).testBit j) := by
  have hmod : msg.arbitration_id.toNat / 256 % 256 = msg.arbitration_id.toNat / 256 :=
    Nat.mod_eq_of_lt (by omega)
  have htb := toBytesLittle_length
    (pythonRound ((st.playback_start_time.getD now + msg.timestamp) * 1000)).toNat 8
  refine ⟨_, _, send_ok_form st msg now hopen hdlc0 hdlc1 hid0 hid1 hch0 hch1 hms0 hms1,
    ?_, ?_, ?_⟩
  · rw [form_assoc]
    exact (canon_getD _ htb _ _ _ _ _).1
  · intro hfd
    rw [form_assoc]
    have h12 := (canon_getD _ htb (msg.arbitration_id.toNat % 256)
      (if msg.is_fd = true then Nat.lor (msg.arbitration_id.toNat / 256 % 256) 16
        else msg.arbitration_id.toNat / 256 % 256)
      msg.channel.toNat (dlc2len.getD msg.dlc.toNat 0) msg.data).2.1
    have h11 := (canon_getD _ htb (msg.arbitration_id.toNat % 256)
      (if msg.is_fd = true then Nat.lor (msg.arbitration_id.toNat / 256 % 256) 16
        else msg.arbitration_id.toNat / 256 % 256)
      msg.channel.toNat (dlc2len.getD msg.dlc.toNat 0) msg.data).1
    rw [h12, h11, hfd]
    simp only [Bool.false_eq_true, if_false]
    exact ⟨hmod, by rw [hmod]; omega⟩
  · intro hfd
    rw [form_assoc]
    have h12 := (canon_getD _ htb (msg.arbitration_id.toNat % 256)
      (if msg.is_fd = true then Nat.lor (msg.arbitration_id.toNat / 256 % 256) 16
        else msg.arbitration_id.toNat / 256 % 256)
      msg.channel.toNat (dlc2len.getD msg.dlc.toNat 0) msg.data).2.1
    rw [h12, hfd]
    simp only [if_true]
    rw [hmod]
    constructor
    · show (msg.arbitration_id.toNat / 256 ||| 16).testBit 4 = true
      rw [Nat.testBit_lor]
      simp only [Bool.or_eq_true]
      exact Or.inr (by decide)
    · intro j hj
      show (msg.arbitration_id.toNat / 256 ||| 16).testBit j
        = (msg.arbitration_id.toNat / 256).testBit j
      rw [Nat.testBit_lor, testBit_sixteen_ne j hj]
      simp

end Xcudp

namespace Xcudp

/-- C6 witness: for arbitration_id = 0x123 and is_extended_length false,
byte 11 is 0x23 and byte 12 is exactly the high identifier byte 0x01, and
the two bytes reassemble the identifier little-endian. -/
theorem C6_identifier_bytes_witness :
    ∃ st' b, send ⟨true, some 0⟩ ⟨0, 291, false, 0, 0, []⟩ 0 = .ok (st', b) ∧
      b.getD 11 0 = (291:ℤ).toNat % 256 ∧
      b.getD 12 0 = (291:ℤ).toNat / 256 ∧
      (291:ℤ).toNat = b.getD 11 0 + 256 * b.getD 12 0 := by
  obtain ⟨st', b, hsend, h11, hfalse, _⟩ :=
    C6_identifier_bytes ⟨true, some 0⟩ ⟨0, 291, false, 0, 0, []⟩ 0 rfl
      (by decide) (by decide) (by decide) (by norm_num) (by decide) (by decide)
      (by rw [pythonRound_eq_zero ((⟨true, some 0⟩ : BusState).playback_start_time.getD 0
            + (⟨0, 291, false, 0, 0, []⟩ : Message).timestamp) (by norm_num)])
      (by rw [pythonRound_eq_zero ((⟨true, some 0⟩ : BusState).playback_start_time.getD 0
            + (⟨0, 291, false, 0, 0, []⟩ : Message).timestamp) (by norm_num)]
          norm_num)
  exact ⟨st', b, hsend, h11, (hfalse rfl).1, (hfalse rfl).2⟩

/-- C9: for every encodable frame, byte 13 of the wire frame equals the
frame's channel field and byte 14 equals the payload length in bytes
Length Table[length_code] (not the length code itself); when the payload
matches the code, the total length is Length Table[length_code] + 15. -/
theorem C9_channel_and_length_bytes (st : BusState) (msg : Message) (now : ℚ)
    (hopen : st._open = true)
    (hdlc0 : 0 ≤ msg.dlc) (hdlc1 : msg.dlc < 16)
    (hid0 : 0 ≤ msg.arbitration_id) (hid1 : msg.arbitration_id < 2 ^ 16)
    (hch0 : 0 ≤ msg.channel) (hch1 : msg.channel < 256)
    (hms0 : 0 ≤ pythonRound ((st.playback_start_time.getD now + msg.timestamp) * 1000))
    (hms1 : pythonRound ((st.playback_start_time.getD now + msg.timestamp) * 1000) < 2 ^ 64) :
    ∃ st' b, send st msg now = .ok (st', b) ∧
      b.getD 13 0 = msg.channel.toNat ∧
      b.getD 14 0 = dlc2len.getD msg.dlc.toNat 0 ∧
      (msg.data.length = dlc2len.getD msg.dlc.toNat 0 →
        b.length = dlc2len.getD msg.dlc.toNat 0 + 15) := by
  have htb := toBytesLittle_length
    (pythonRound ((st.playback_start_time.getD now + msg.timestamp) * 1000)).toNat 8
  refine ⟨_, _, send_ok_form st msg now hopen hdlc0 hdlc1 hid0 hid1 hch0 hch1 hms0 hms1,
    ?_, ?_, ?_⟩
  · rw [form_assoc]
    exact (canon_getD _ htb _ _ _ _ _).2.2.1
  · rw [form_assoc]
    exact (canon_getD _ htb _ _ _ _ _).2.2.2
  · intro hmatch
    rw [form_assoc, canon_length _ htb, hmatch]
    omega

/-- C9 witness: the scenario frame (length code 8, id 0x123, channel 2,
classic frame): 23 bytes total, byte 13 = 2, byte 14 = 8. -/
theorem C9_channel_and_length_bytes_witness :
    ∃ st' b, send ⟨true, some 0⟩ ⟨0, 291, false, 2, 8, [1, 2, 3, 4, 5, 6, 7, 8]⟩ 0
        = .ok (st', b) ∧
      b.getD 13 0 = 2 ∧ b.getD 14 0 = 8 ∧ b.length = 23 := by
  obtain ⟨st', b, hsend, h13, h14, hlen⟩ :=
    C9_channel_and_length_bytes ⟨true, some 0⟩ ⟨0, 291, false, 2, 8, [1, 2, 3, 4, 5, 6, 7, 8]⟩ 0
      rfl (by decide) (by decide) (by decide) (by norm_num) (by decide) (by decide)
      (by rw [pythonRound_eq_zero ((⟨true, some 0⟩ : BusState).playback_start_time.getD 0
            + (⟨0, 291, false, 2, 8, [1, 2, 3, 4, 5, 6, 7, 8]⟩ : Message).timestamp) (by norm_num)])
      (by rw [pythonRound_eq_zero ((⟨true, some 0⟩ : BusState).playback_start_time.getD 0
            + (⟨0, 291, false, 2, 8, [1, 2, 3, 4, 5, 6, 7, 8]⟩ : Message).timestamp) (by norm_num)]
          norm_num)
  exact ⟨st', b, hsend, h13, h14, (hlen (by decide)).trans (by decide)⟩

/-- C10: for every process state and frame, a successful `send` changes
neither the channel registry nor any delivery queue — no fan-out to
sibling instances exists — and its only bus-state effect is recording the
playback epoch on the very first call (later calls keep the stored epoch);
moreover `send` never fails with the delivery error of the dead
`all_sent` branch. -/
theorem C10_send_effects {K Q : Type} (w : World K Q) (msg : Message) (now : ℚ) :
    (∀ w' b, sendWorld w msg now = .ok (w', b) →
      w'.channels = w.channels ∧ w'.queues = w.queues ∧
      w'.bus._open = w.bus._open ∧
      w'.bus.playback_start_time = some (w.bus.playback_start_time.getD now)) ∧
    sendWorld w msg now
      ≠ .error (.CanError "Could not send message to one or more recipients") := by
  constructor
  · intro w' b h
    obtain ⟨hch, hq, hsend⟩ := sendWorld_ok_inv _ _ _ _ _ h
    obtain ⟨hopen, hst, _⟩ := send_ok_inv _ _ _ _ _ hsend
    refine ⟨hch, hq, ?_, ?_⟩
    · rw [hst, hopen]
    · rw [hst]
  · intro h
    have hs := sendWorld_error_inv _ _ _ _ h
    rcases send_error_inv _ _ _ _ hs with h' | h' | h' | h' <;> exact absurd h' (by decide)

/-- C10 witness: a concrete world with one registered sibling queue; send
succeeds, registry and queues are untouched, and the playback epoch is the
stored one. -/
theorem C10_send_effects_witness :
    ∃ w' b, sendWorld (⟨⟨true, some 0⟩, [(0, [5])], [(5, [])]⟩ : World ℕ ℕ)
        ⟨0, 291, false, 0, 0, []⟩ 0 = .ok (w', b) ∧
      w'.channels = [(0, [5])] ∧ w'.queues = [(5, [])] ∧
      w'.bus._open = true ∧ w'.bus.playback_start_time = some 0 := by
  have hform := send_ok_form ⟨true, some 0⟩ ⟨0, 291, false, 0, 0, []⟩ 0 rfl
    (by decide) (by decide) (by decide) (by norm_num) (by decide) (by decide)
    (by rw [pythonRound_eq_zero ((⟨true, some 0⟩ : BusState).playback_start_time.getD 0
          + (⟨0, 291, false, 0, 0, []⟩ : Message).timestamp) (by norm_num)])
    (by rw [pythonRound_eq_zero ((⟨true, some 0⟩ : BusState).playback_start_time.getD 0
          + (⟨0, 291, false, 0, 0, []⟩ : Message).timestamp) (by norm_num)]
        norm_num)
  have hw : sendWorld (⟨⟨true, some 0⟩, [(0, [5])], [(5, [])]⟩ : World ℕ ℕ)
      ⟨0, 291, false, 0, 0, []⟩ 0
      = .ok (⟨⟨true, some ((some (0:ℚ)).getD 0)⟩, [(0, [5])], [(5, [])]⟩,
        [0, 1, 0]
          ++ toBytesLittle (pythonRound (((⟨true, some 0⟩ : BusState).playback_start_time.getD 0
              + (⟨0, 291, false, 0, 0, []⟩ : Message).timestamp) * 1000)).toNat 8
          ++ [(291:ℤ).toNat % 256,
              if (false:Bool) then Nat.lor ((291:ℤ).toNat / 256 % 256) 16
              else (291:ℤ).toNat / 256 % 256,
              (0:ℤ).toNat, dlc2len.getD (0:ℤ).toNat 0]
          ++ ([] : List ℕ)) := by
    simp only [sendWorld]
    rw [hform, except_bind_ok]
    rfl
  have h10 := (C10_send_effects (⟨⟨true, some 0⟩, [(0, [5])], [(5, [])]⟩ : World ℕ ℕ)
    ⟨0, 291, false, 0, 0, []⟩ 0).1 _ _ hw
  exact ⟨_, _, hw, h10.1, h10.2.1, h10.2.2.1, h10.2.2.2⟩

end Xcudp
